import Mathlib

/-!
Shallow embedding of the vestigas delivery-ingestion backend
(`backend/partners/transformers.py`, `backend/utils/retry.py`,
`backend/partners/client.py`, `backend/data_access.py`) in Lean 4,
together with theorems settling the specification claims.

Datetimes are modelled as integers (abstract instants); floats that only
ever hold small dyadic values (the delivery score, backoff delays) are
modelled as rationals.
-/

namespace Vestigas

/-- Substring test on lists of characters: `pat` occurs contiguously in
`hay`.  Used to model the Python expression `s in status_lower`. -/
def listInfix (pat hay : List Char) : Bool :=
  if pat.isPrefixOf hay then true
  else
    match hay with
    | [] => false
    | _ :: t => listInfix pat t

/-- Python `pat in hay` on strings (substring containment). -/
def strContains (hay pat : String) : Bool :=
  listInfix pat.toList hay.toList

/-- Python `s.lower()` (ASCII lowering), modelled character by character. -/
def strToLower (s : String) : String :=
  ⟨s.data.map Char.toLower⟩

/-- From `transformers._normalize_status`: maps partner status strings to
the unified set, by case-insensitive keyword containment, first category
winning. -/
def normalize_status (partner_status : String) : String :=
  let status_lower := strToLower partner_status
  if ["delivered", "done", "complete"].any (fun s => strContains status_lower s) then
    "delivered"
  else if ["cancel", "fail", "rejected"].any (fun s => strContains status_lower s) then
    "cancelled"
  else if ["transit", "shipped", "pending", "scheduled"].any (fun s => strContains status_lower s) then
    "pending"
  else
    "other"

/-- From `transformers._calculate_score`: score = 1.0 base + 2.0 if
delivered + 2.0 if signed, capped at 5.0. -/
def calculate_score (is_delivered is_signed : Bool) : ℚ :=
  let score : ℚ := 1
  let score := if is_delivered then score + 2 else score
  let score := if is_signed then score + 2 else score
  min 5 score

/-- Spec-side restatement of `normalizeStatus` (section 4.2 of the spec):
case-insensitive substring match against fixed keyword sets, first
matching category in the fixed order wins. -/
def specNormalizeStatus (raw : String) : String :=
  let hit := fun (kws : List String) =>
    kws.any (fun kw => strContains (strToLower raw) (strToLower kw))
  if hit ["delivered", "done", "complete"] then "delivered"
  else if hit ["cancel", "fail", "rejected"] then "cancelled"
  else if hit ["transit", "shipped", "pending", "scheduled"] then "pending"
  else "other"

/-- Abstract instants standing for Python `datetime` values. -/
abbrev DateTime := ℤ

/-- From `schemas.DeliveryEventBase`: the normalized delivery event
produced by the transformers. -/
structure DeliveryEventBase where
  siteId : String
  supplier : String
  supplierDeliveryId : String
  deliveredAt : DateTime
  status : String
  deliveryScore : ℚ
  isSigned : Bool
deriving DecidableEq

/-- Pydantic construction of `DeliveryEventBase` as the transformers
perform it: the required string fields `siteId` and `supplierDeliveryId`
are fed from `dict.get(...)` and may be `None`, in which case Pydantic
raises a `ValidationError` (a `str` field rejects `None`; the schema
declares no further constraint on status, score, or emptiness). -/
def mkDeliveryEventBase (siteId : Option String) (supplier : String)
    (supplierDeliveryId : Option String) (deliveredAt : DateTime)
    (status : String) (deliveryScore : ℚ) (isSigned : Bool) :
    Except String DeliveryEventBase :=
  match siteId, supplierDeliveryId with
  | some si, some sdi =>
      .ok ⟨si, supplier, sdi, deliveredAt, status, deliveryScore, isSigned⟩
  | none, _ => .error "ValidationError: siteId is None"
  | some _, none => .error "ValidationError: supplierDeliveryId is None"

/-- Raw record shape read by `PartnerATransformer` (flat fields, each
possibly absent as `dict.get` returns `None`). -/
structure RawA where
  deliveryStatus : Option String
  podSigned : Option Bool
  deliveryTime : Option String
  site_id : Option String
  order_id : Option String

/-- Raw record shape read by `PartnerBTransformer` (nested lookups
flattened to the leaf values actually read). -/
structure RawB where
  status_code : Option String
  proof_signed : Option Bool
  delivery_completion : Option String
  site_ref : Option String
  reference_id : Option String

/-- The data-errors dictionary returned by a transformer: `some msg`
models a dict holding `msg` under the deliveredAt key and `none` models the `errors if errors
else None` case. -/
abbrev DataErrors := Option String

/-- Step 4 of `PartnerATransformer.transform_and_score`: the
`try/except` around timestamp parsing.  A falsy `deliveryTime` (absent or
empty string) raises, and any parse failure is caught: an errors-map
entry is recorded and `datetime.now` substituted.  ISO-8601 parsing
(`datetime.fromisoformat` after the `Z` replacement) is library code,
modelled by the oracle `parse`. -/
def parseTimeA (parse : String → Option DateTime) (now : DateTime)
    (deliveryTime : Option String) : DateTime × DataErrors :=
  match deliveryTime with
  | some s =>
      if s ≠ "" then
        match parse s with
        | some t => (t, none)
        | none => (now, some ("Failed to parse deliveryTime " ++ s))
      else (now, some "deliveryTime field is missing or empty.")
  | none => (now, some "deliveryTime field is missing or empty.")

/-- Step 4 of `PartnerBTransformer.transform_and_score`: Unix-epoch
parsing (`int(...)` then `datetime.fromtimestamp`), modelled by the
oracle `parse`, with the same catch-and-substitute handling. -/
def parseTimeB (parse : String → Option DateTime) (now : DateTime)
    (delivery_completion : Option String) : DateTime × DataErrors :=
  match delivery_completion with
  | some s =>
      if s ≠ "" then
        match parse s with
        | some t => (t, none)
        | none => (now, some "Failed to parse delivery_completion timestamp")
      else (now, some "delivery_completion timestamp is missing or empty.")
  | none => (now, some "delivery_completion timestamp is missing or empty.")

/-- From `PartnerATransformer.transform_and_score`: normalize status,
read the signed flag with default `False`, score, parse the timestamp,
then build and validate the normalized event; a `ValidationError` on
construction propagates as `.error`. -/
def transformA (parseIso : String → Option DateTime) (now : DateTime)
    (raw : RawA) : Except String (DeliveryEventBase × DataErrors) :=
  let status_normalized := normalize_status (raw.deliveryStatus.getD "UNKNOWN")
  let is_delivered := status_normalized == "delivered"
  let is_signed := raw.podSigned.getD false
  let score := calculate_score is_delivered is_signed
  let parsed := parseTimeA parseIso now raw.deliveryTime
  match mkDeliveryEventBase raw.site_id "Partner_A" raw.order_id
      parsed.1 status_normalized score is_signed with
  | .ok ev => .ok (ev, parsed.2)
  | .error e => .error e

/-- From `PartnerBTransformer.transform_and_score`, with its nested
field lookups pre-flattened in `RawB`. -/
def transformB (parseEpoch : String → Option DateTime) (now : DateTime)
    (raw : RawB) : Except String (DeliveryEventBase × DataErrors) :=
  let status_normalized := normalize_status (raw.status_code.getD "UNKNOWN")
  let is_delivered := status_normalized == "delivered"
  let is_signed := raw.proof_signed.getD false
  let score := calculate_score is_delivered is_signed
  let parsed := parseTimeB parseEpoch now raw.delivery_completion
  match mkDeliveryEventBase raw.site_ref "Partner_B" raw.reference_id
      parsed.1 status_normalized score is_signed with
  | .ok ev => .ok (ev, parsed.2)
  | .error e => .error e

/-- The delivered-at extraction fails on this field value (absent, falsy
empty string, or unparsable). -/
def timestampFails (parse : String → Option DateTime)
    (field : Option String) : Prop :=
  match field with
  | none => True
  | some s => s = "" ∨ parse s = none

/-- The raw source payload stored for audit (`sourceData`): an opaque
JSON blob, modelled as its serialized text. -/
abbrev SourceData := String

/-- A stored `delivery_events` row (`orm_models.DeliveryEvent`), with the
columns the repository writes. -/
structure StoredEvent where
  jobId : String
  siteId : String
  supplier : String
  supplierDeliveryId : String
  deliveredAt : DateTime
  status : String
  deliveryScore : ℚ
  isSigned : Bool
  dataErrors : DataErrors
  sourceData : SourceData
  createdAt : DateTime
  updatedAt : DateTime
deriving DecidableEq

/-- The upsert conflict key from `orm_models.DeliveryEvent.__table_args__`
and `insert_or_update_delivery_event`: (supplierDeliveryId, supplier). -/
def sameKey (r : StoredEvent) (data : DeliveryEventBase) : Bool :=
  r.supplierDeliveryId == data.supplierDeliveryId && r.supplier == data.supplier

/-- From `DeliveryRepository.insert_or_update_delivery_event`: SQLite
`INSERT ... ON CONFLICT (supplierDeliveryId, supplier) DO UPDATE` with
`set_` touching only `jobId` and `updatedAt`.  The table is the list of
rows; `now` stands for the `datetime.now(timezone.utc)` of this invocation. -/
def insert_or_update_delivery_event (store : List StoredEvent)
    (data : DeliveryEventBase) (jobId : String) (source_data : SourceData)
    (data_errors : DataErrors) (now : DateTime) : List StoredEvent :=
  if store.any (fun r => sameKey r data) then
    store.map (fun r =>
      if sameKey r data then { r with jobId := jobId, updatedAt := now } else r)
  else
    store ++ [{ jobId := jobId, siteId := data.siteId, supplier := data.supplier,
                supplierDeliveryId := data.supplierDeliveryId,
                deliveredAt := data.deliveredAt, status := data.status,
                deliveryScore := data.deliveryScore, isSigned := data.isSigned,
                dataErrors := data_errors, sourceData := source_data,
                createdAt := now, updatedAt := now }]

/-- Per-partner statistics (`schemas.PartnerStats`). -/
structure PartnerStats where
  fetched : ℕ := 0
  transformed : ℕ := 0
  errors : ℕ := 0
  error_message : Option String := none
deriving DecidableEq

/-- The aggregated `final_stats` dictionary built by
`JobManager.run_fetch_job`: overall totals plus the per-partner stats
keyed by partner name. -/
structure FinalStats where
  stored : ℕ
  total_fetched : ℕ
  perPartner : List (String × PartnerStats)
deriving DecidableEq

/-- A `job_status` row (`orm_models.JobStatus`), with the columns the
repository reads and writes. -/
structure Job where
  jobId : String
  status : String
  input_siteId : String
  input_date : String
  stats : Option FinalStats
  error : Option String
  finishedAt : Option DateTime
deriving DecidableEq

/-- From `DeliveryRepository.create_job`: a fresh row with status
`created`, default statistics and no error or finish timestamp. -/
def create_job (jobId siteId date : String) : Job :=
  { jobId := jobId, status := "created", input_siteId := siteId,
    input_date := date, stats := none, error := none, finishedAt := none }

/-- Python truthiness of an optional string (`if error:`): `None` and the
empty string are falsy. -/
def truthyStr : Option String → Bool
  | none => false
  | some s => s ≠ ""

/-- From `DeliveryRepository.update_job_status`: writes the new status,
merges statistics when given, records the error when truthy, and stamps
`finishedAt` exactly when the new status is terminal. -/
def update_job_status (job : Job) (status : String)
    (stats_update : Option FinalStats) (error : Option String)
    (now : DateTime) : Job :=
  let job := { job with status := status }
  let job := match stats_update with
    | some su => { job with stats := some su }
    | none => job
  let job := if truthyStr error then { job with error := error } else job
  if status ∈ ["finished", "failed"] then { job with finishedAt := some now }
  else job

/-- Arguments of one `update_job_status` call. -/
structure UpdateArgs where
  status : String
  stats : Option FinalStats
  error : Option String
  now : DateTime

/-- Replaying a sequence of `update_job_status` calls on a job. -/
def applyUpdates (job : Job) : List UpdateArgs → Job
  | [] => job
  | u :: us => applyUpdates (update_job_status job u.status u.stats u.error u.now) us

/-- The job state machine of the spec:
`created → processing → {finished, failed}`. -/
def allowedNext (fromSt toSt : String) : Prop :=
  (fromSt = "created" ∧ toSt = "processing") ∨
  (fromSt = "processing" ∧ (toSt = "finished" ∨ toSt = "failed"))

/-- A sequence of updates follows the state machine from the given
status. -/
def validSeq : String → List UpdateArgs → Prop
  | _, [] => True
  | st, u :: us => allowedNext st u.status ∧ validSeq u.status us

/-- The terminal-timestamp invariant: `finishedAt` is set iff the status
is terminal. -/
def finishedInv (job : Job) : Prop :=
  job.finishedAt.isSome ↔ (job.status = "finished" ∨ job.status = "failed")

/-- The completed per-partner results gathered by `run_fetch_job`, in
partner registration order: partner name, its `PartnerStats`, and its
optional fatal batch error. -/
abbrev PartnerResults := List (String × PartnerStats × Option String)

/-- The `final_stats` aggregation loop of `run_fetch_job`: per-partner
stats keyed by name plus the `stored` and `total_fetched` totals. -/
def finalStatsOf (results : PartnerResults) : FinalStats :=
  { stored := (results.map (fun r => r.2.1.transformed)).sum,
    total_fetched := (results.map (fun r => r.2.1.fetched)).sum,
    perPartner := results.map (fun r => (r.1, r.2.1)) }

/-- The `has_fatal_error` flag of the aggregation loop: set when some
fatal error of some partner is truthy (`if fatal_error:`). -/
def hasFatalError (results : PartnerResults) : Bool :=
  results.any (fun r => truthyStr r.2.2)

/-- The `overall_error_message` accumulation of the aggregation loop:
`overall_error_message = overall_error_message or fatal_error`, executed
only when `fatal_error` is truthy. -/
def overallErrorMessage (results : PartnerResults) : Option String :=
  results.foldl
    (fun acc r =>
      if truthyStr r.2.2 then (if truthyStr acc then acc else r.2.2) else acc)
    none

/-- From `JobManager.run_fetch_job`, after all partner fetches complete:
mark the job `processing`, aggregate, and write the terminal status —
`failed` exactly when some partner reported a fatal error and the
aggregate stored count is zero, else `finished`; the overall error
message is passed to `update_job_status` in both branches. -/
def run_fetch_job (job : Job) (results : PartnerResults)
    (nowProcessing nowTerminal : DateTime) : Job :=
  let job := update_job_status job "processing" none none nowProcessing
  let final_stats := finalStatsOf results
  let overall := overallErrorMessage results
  if hasFatalError results && decide (final_stats.stored = 0) then
    update_job_status job "failed" (some final_stats) overall nowTerminal
  else
    update_job_status job "finished" (some final_stats) overall nowTerminal

/-- Classified errors of the wrapped coroutine, mirroring the httpx
exception types named in `utils/retry.py` (`otherError` stands for any
exception outside `exceptions_to_retry`, e.g. a JSON decode error). -/
inductive NetError where
  | connectError
  | timeoutException
  | httpStatusError (code : ℕ)
  | otherError
deriving DecidableEq

/-- One attempt of the wrapped coroutine either returns an
`httpx.Response` (carrying a status code) or raises. -/
inductive AttemptOutcome where
  | response (status : ℕ)
  | raised (e : NetError)
deriving DecidableEq

/-- Result of the whole wrapped call. -/
inductive RetryResult where
  | returned (status : ℕ)
  | raised (e : NetError)
deriving DecidableEq

/-- `RETRY_STATUS_CODES` from `utils/retry.py`. -/
def RETRY_STATUS_CODES : List ℕ := [500, 502, 503, 504]

/-- `isinstance(e, exceptions_to_retry)` for the default tuple
`(ConnectError, TimeoutException, HTTPStatusError)`. -/
def caughtByRetry : NetError → Bool
  | .connectError => true
  | .timeoutException => true
  | .httpStatusError _ => true
  | .otherError => false

/-- The fatal check of the except branch: `isinstance(e, HTTPStatusError)
and e.response.status_code not in RETRY_STATUS_CODES`. -/
def fatalHttp : NetError → Bool
  | .httpStatusError c => !(RETRY_STATUS_CODES.contains c)
  | _ => false

/-- The backoff delay slept before retrying after attempt `attempt`:
`base_backoff_time * 2 ** attempt`, replaced by `random.uniform(0, ...)`
— modelled as the draw `u attempt` as a fraction of the bound — when
jitter is on. -/
def backoffDelay (base : ℚ) (jitter : Bool) (u : ℕ → ℚ) (attempt : ℕ) : ℚ :=
  let delay := base * 2 ^ attempt
  if jitter then u attempt * delay else delay

/-- Trace of one run of the retry wrapper: final outcome, the sleeps
performed (in order), and how many attempts were executed. -/
structure RetryTrace where
  result : RetryResult
  delays : List ℚ
  attemptsMade : ℕ
deriving DecidableEq

/-- The loop of `async_retry.wrapper`, by recursion on the remaining
loop iterations (`fuel = max_retries + 1 - attempt`, so
`attempt < max_retries` iff `0 < fuel` after peeling this iteration).
A response whose status is retriable with attempts left raises
`HTTPStatusError`, caught below as a retriable error (sleep and
continue); on the final attempt such a response is returned.  A caught
exception that is an `HTTPStatusError` with non-retriable status
re-raises immediately; other caught exceptions sleep and continue while
attempts remain and re-raise on the final attempt; an uncaught
exception propagates at once. -/
def retryGo (base : ℚ) (jitter : Bool) (u : ℕ → ℚ)
    (attempts : ℕ → AttemptOutcome) : (attempt : ℕ) → (fuel : ℕ) → RetryTrace
  | _, 0 => ⟨.raised .otherError, [], 0⟩
  | i, fuel + 1 =>
    match attempts i with
    | .response status =>
        if RETRY_STATUS_CODES.contains status && decide (0 < fuel) then
          let rest := retryGo base jitter u attempts (i + 1) fuel
          ⟨rest.result, backoffDelay base jitter u i :: rest.delays,
            rest.attemptsMade + 1⟩
        else ⟨.returned status, [], 1⟩
    | .raised e =>
        if !caughtByRetry e then ⟨.raised e, [], 1⟩
        else if fatalHttp e then ⟨.raised e, [], 1⟩
        else if 0 < fuel then
          let rest := retryGo base jitter u attempts (i + 1) fuel
          ⟨rest.result, backoffDelay base jitter u i :: rest.delays,
            rest.attemptsMade + 1⟩
        else ⟨.raised e, [], 1⟩

/-- `async_retry(max_retries, base_backoff_time, jitter)` applied to an
operation whose successive attempt outcomes are given by `attempts`. -/
def async_retry (max_retries : ℕ) (base : ℚ) (jitter : Bool) (u : ℕ → ℚ)
    (attempts : ℕ → AttemptOutcome) : RetryTrace :=
  retryGo base jitter u attempts 0 (max_retries + 1)

/-- An attempt outcome the wrapper treats as retriable: a response with
status in the retriable set, or a caught exception that is not a fatal
`HTTPStatusError`. -/
def retriableOutcome : AttemptOutcome → Bool
  | .response s => RETRY_STATUS_CODES.contains s
  | .raised e => caughtByRetry e && !fatalHttp e

/-- The wrapper result an attempt produces when it is the one the loop
stops at. -/
def resultOfOutcome : AttemptOutcome → RetryResult
  | .response s => .returned s
  | .raised e => .raised e

/-- The error the caller observes for an attempt outcome after
`response.raise_for_status()`: an error response surfaces as an
`HTTPStatusError` of the same status, a raised error as itself. -/
def errorOfOutcome : AttemptOutcome → NetError
  | .response s => .httpStatusError s
  | .raised e => e

/-- `_fetch_raw_data` (the retry-wrapped GET) followed by
`response.raise_for_status()` in `fetch_partner_data`: the caller gets
the status on success or the propagated error. -/
def fetchWithStatusCheck (max_retries : ℕ) (base : ℚ) (jitter : Bool)
    (u : ℕ → ℚ) (attempts : ℕ → AttemptOutcome) :
    Except NetError ℕ × RetryTrace :=
  let t := async_retry max_retries base jitter u attempts
  match t.result with
  | .raised e => (.error e, t)
  | .returned status =>
      if 400 ≤ status ∧ status ≤ 599 then (.error (.httpStatusError status), t)
      else (.ok status, t)

/-- A Python exception escaping a per-record step (a `ValidationError`
or any other `Exception`), carried as its message. -/
abbrev PyError := String

/-- The per-record loop body of `fetch_partner_data`: transform the
record, upsert it, and count it transformed; any exception from either
step is caught individually and counted (`stats.errors += 1`), so the
loop goes on to the remaining records. -/
def processRecord {ρ σ : Type}
    (transform : ρ → Except PyError (DeliveryEventBase × DataErrors))
    (persist : σ → ρ → DeliveryEventBase → DataErrors → Except PyError σ)
    (acc : PartnerStats × σ) (record : ρ) : PartnerStats × σ :=
  match transform record with
  | .error _ => ({ acc.1 with errors := acc.1.errors + 1 }, acc.2)
  | .ok (ev, de) =>
      match persist acc.2 record ev de with
      | .error _ => ({ acc.1 with errors := acc.1.errors + 1 }, acc.2)
      | .ok s' => ({ acc.1 with transformed := acc.1.transformed + 1 }, s')

/-- From `PartnerAPIClient.fetch_partner_data`: the retry-wrapped GET
followed by `raise_for_status` (`fetchWithStatusCheck`), JSON decoding
(`decoded`, the oracle for `response.json()`), then the per-record loop
over the generic record type `ρ` against the store `σ` (`persist` is the
repository upsert, which may itself raise).  An `httpx.HTTPStatusError`
at batch level is caught by the first except handler, every other batch
exception (final network failure, decode error) by the catch-all;
both record a stats error message and return the job-level fatal error —
nothing is re-raised. -/
def fetch_partner_data {ρ σ : Type} (partner_name : String)
    (max_retries : ℕ) (base : ℚ) (jitter : Bool) (u : ℕ → ℚ)
    (attempts : ℕ → AttemptOutcome)
    (decoded : Except PyError (List ρ))
    (transform : ρ → Except PyError (DeliveryEventBase × DataErrors))
    (persist : σ → ρ → DeliveryEventBase → DataErrors → Except PyError σ)
    (store : σ) : PartnerStats × Option String × σ :=
  match (fetchWithStatusCheck max_retries base jitter u attempts).1 with
  | .error (.httpStatusError code) =>
      ({ fetched := 0, transformed := 0, errors := 0,
         error_message := some ("HTTP Error " ++ toString code) },
       some ("Failed to fetch data from " ++ partner_name ++
         " due to terminal  HTTP error: " ++ toString code),
       store)
  | .error _ =>
      ({ fetched := 0, transformed := 0, errors := 0,
         error_message := some "Critical Fetch Error" },
       some ("Failed to fetch data from " ++ partner_name ++
         " due to final error"),
       store)
  | .ok _ =>
      match decoded with
      | .error msg =>
          ({ fetched := 0, transformed := 0, errors := 0,
             error_message := some ("Critical Fetch Error: " ++ msg) },
           some ("Failed to fetch data from " ++ partner_name ++
             " due to final error: " ++ msg),
           store)
      | .ok raw_records =>
          let res := raw_records.foldl (processRecord transform persist)
            ({ fetched := raw_records.length, transformed := 0, errors := 0,
               error_message := none }, store)
          (res.1, none, res.2)

end Vestigas

namespace Vestigas

lemma normalize_status_mem (raw : String) :
    normalize_status raw ∈ ["delivered", "cancelled", "pending", "other"] := by
  unfold normalize_status
  dsimp only
  split
  · simp
  · split
    · simp
    · split <;> simp

lemma calculate_score_mem (d s : Bool) :
    calculate_score d s ∈ ({1, 3, 5} : Set ℚ) := by
  cases d <;> cases s <;> norm_num [calculate_score]

lemma parseTimeA_fail (parse : String → Option DateTime) (now : DateTime)
    (field : Option String) (h : timestampFails parse field) :
    (parseTimeA parse now field).1 = now ∧ (parseTimeA parse now field).2.isSome := by
  cases field with
  | none => simp [parseTimeA]
  | some s =>
      simp only [timestampFails] at h
      by_cases hs : s = ""
      · simp [parseTimeA, hs]
      · rcases h with h | h
        · exact absurd h hs
        · simp [parseTimeA, hs, h]

lemma parseTimeB_fail (parse : String → Option DateTime) (now : DateTime)
    (field : Option String) (h : timestampFails parse field) :
    (parseTimeB parse now field).1 = now ∧ (parseTimeB parse now field).2.isSome := by
  cases field with
  | none => simp [parseTimeB]
  | some s =>
      simp only [timestampFails] at h
      by_cases hs : s = ""
      · simp [parseTimeB, hs]
      · rcases h with h | h
        · exact absurd h hs
        · simp [parseTimeB, hs, h]

lemma transformA_some_eq (parseIso : String → Option DateTime) (now : DateTime)
    (ds : Option String) (ps : Option Bool) (dt : Option String) (si oi : String) :
    transformA parseIso now ⟨ds, ps, dt, some si, some oi⟩ =
      .ok (⟨si, "Partner_A", oi, (parseTimeA parseIso now dt).1,
            normalize_status (ds.getD "UNKNOWN"),
            calculate_score (normalize_status (ds.getD "UNKNOWN") == "delivered")
              (ps.getD false),
            ps.getD false⟩,
           (parseTimeA parseIso now dt).2) := rfl

lemma transformB_some_eq (parseEpoch : String → Option DateTime) (now : DateTime)
    (sc : Option String) (pf : Option Bool) (dc : Option String) (sr ri : String) :
    transformB parseEpoch now ⟨sc, pf, dc, some sr, some ri⟩ =
      .ok (⟨sr, "Partner_B", ri, (parseTimeB parseEpoch now dc).1,
            normalize_status (sc.getD "UNKNOWN"),
            calculate_score (normalize_status (sc.getD "UNKNOWN") == "delivered")
              (pf.getD false),
            pf.getD false⟩,
           (parseTimeB parseEpoch now dc).2) := rfl

/-- C7: Score function: for every pair of booleans (delivered, signed),
`computeScore` returns 1.0 plus 2.0 if delivered plus 2.0 if signed,
clamped to a maximum of 5.0, so the result lies in [1.0, 5.0], with the
four concrete values 5.0, 1.0, 3.0, 3.0. -/
theorem score_correct :
    (∀ d s : Bool,
      calculate_score d s
        = min 5 (1 + (if d then (2 : ℚ) else 0) + (if s then (2 : ℚ) else 0)) ∧
      1 ≤ calculate_score d s ∧ calculate_score d s ≤ 5) ∧
    calculate_score true true = 5 ∧
    calculate_score false false = 1 ∧
    calculate_score true false = 3 ∧
    calculate_score false true = 3 := by
  refine ⟨fun d s => ?_, by norm_num [calculate_score], by norm_num [calculate_score],
    by norm_num [calculate_score], by norm_num [calculate_score]⟩
  cases d <;> cases s <;> refine ⟨by norm_num [calculate_score], by norm_num [calculate_score], by norm_num [calculate_score]⟩

/-- C8: Status normalization: for every input string, `_normalize_status`
agrees with the description in the spec (case-insensitive substring match
against the fixed keyword sets, first matching category in the fixed order
winning), and its result is one of the four closed statuses. -/
theorem normalize_status_correct :
    ∀ raw : String,
      normalize_status raw = specNormalizeStatus raw ∧
      normalize_status raw ∈ ["delivered", "cancelled", "pending", "other"] := by
  intro raw
  constructor
  · unfold normalize_status specNormalizeStatus
    simp only [List.any_cons, List.any_nil]
    rfl
  · exact normalize_status_mem raw

/-- C5: Transformer failure-kind separation: a failed or missing
delivered-at timestamp never makes `transform_and_score` raise — the
returned data-errors map has a non-null `deliveredAt` entry and the event
carries the current processing time — while the transformer raises if and
only if Pydantic validation of the constructed normalized event fails
(the required `siteId` / `supplierDeliveryId` field was `None`). -/
theorem transform_failure_kinds
    (parseIso parseEpoch : String → Option DateTime) (now : DateTime)
    (ra : RawA) (rb : RawB) :
    ((transformA parseIso now ra).isOk ↔
        (ra.site_id.isSome ∧ ra.order_id.isSome)) ∧
    ((transformB parseEpoch now rb).isOk ↔
        (rb.site_ref.isSome ∧ rb.reference_id.isSome)) ∧
    (timestampFails parseIso ra.deliveryTime →
      ∀ ev de, transformA parseIso now ra = .ok (ev, de) →
        de.isSome ∧ ev.deliveredAt = now) ∧
    (timestampFails parseEpoch rb.delivery_completion →
      ∀ ev de, transformB parseEpoch now rb = .ok (ev, de) →
        de.isSome ∧ ev.deliveredAt = now) := by
  obtain ⟨ds, ps, dt, si, oi⟩ := ra
  obtain ⟨sc, pf, dc, sr, ri⟩ := rb
  refine ⟨?_, ?_, ?_, ?_⟩
  · cases si <;> cases oi <;>
      simp [transformA, mkDeliveryEventBase, Except.isOk, Except.toBool]
  · cases sr <;> cases ri <;>
      simp [transformB, mkDeliveryEventBase, Except.isOk, Except.toBool]
  · intro hfail ev de hok
    obtain ⟨h1, h2⟩ := parseTimeA_fail parseIso now dt hfail
    cases si with
    | none => simp [transformA, mkDeliveryEventBase] at hok
    | some si' =>
        cases oi with
        | none => simp [transformA, mkDeliveryEventBase] at hok
        | some oi' =>
            rw [transformA_some_eq] at hok
            obtain ⟨hev, hde⟩ := (Prod.mk.injEq ..).mp (Except.ok.inj hok)
            subst hev hde
            exact ⟨h2, h1⟩
  · intro hfail ev de hok
    obtain ⟨h1, h2⟩ := parseTimeB_fail parseEpoch now dc hfail
    cases sr with
    | none => simp [transformB, mkDeliveryEventBase] at hok
    | some sr' =>
        cases ri with
        | none => simp [transformB, mkDeliveryEventBase] at hok
        | some ri' =>
            rw [transformB_some_eq] at hok
            obtain ⟨hev, hde⟩ := (Prod.mk.injEq ..).mp (Except.ok.inj hok)
            subst hev hde
            exact ⟨h2, h1⟩

/-- Witness for C5 at a concrete input: the Partner A transformer, with an
always-failing parser and all identifying fields present, returns (does
not raise) the fallback timestamp and a non-null error entry. -/
theorem transform_failure_kinds_witness :
    ((transformA (fun _ => none) 7
        ⟨some "DELIVERED", some true, some "bogus", some "S1", some "A-1"⟩).isOk ↔
      ((some "S1").isSome ∧ (some "A-1").isSome)) ∧
    (timestampFails (fun _ => none) (some "bogus") ∧
      ∀ ev de,
        transformA (fun _ => none) 7
            ⟨some "DELIVERED", some true, some "bogus", some "S1", some "A-1"⟩ = .ok (ev, de) →
          de.isSome ∧ ev.deliveredAt = 7) := by
  have h := transform_failure_kinds (fun _ => none) (fun _ => none) 7
    ⟨some "DELIVERED", some true, some "bogus", some "S1", some "A-1"⟩
    ⟨some "done", some false, none, some "S1", some "B-1"⟩
  exact ⟨h.1, by simp [timestampFails], h.2.2.1 (by simp [timestampFails])⟩

/-- C10: Implicit transformer output invariant: whenever a transformer
returns, the status of the event lies in the closed four-element set, its
`isSigned` flag is the raw signed field defaulted to `false`, and its
score equals `_calculate_score` of (status == delivered) and isSigned, hence
lies in {1.0, 3.0, 5.0}. -/
theorem transform_output_invariant
    (parseIso parseEpoch : String → Option DateTime) (now : DateTime)
    (ra : RawA) (rb : RawB) :
    (∀ ev de, transformA parseIso now ra = .ok (ev, de) →
      ev.status ∈ ["delivered", "cancelled", "pending", "other"] ∧
      ev.isSigned = ra.podSigned.getD false ∧
      ev.deliveryScore = calculate_score (ev.status == "delivered") ev.isSigned ∧
      ev.deliveryScore ∈ ({1, 3, 5} : Set ℚ)) ∧
    (∀ ev de, transformB parseEpoch now rb = .ok (ev, de) →
      ev.status ∈ ["delivered", "cancelled", "pending", "other"] ∧
      ev.isSigned = rb.proof_signed.getD false ∧
      ev.deliveryScore = calculate_score (ev.status == "delivered") ev.isSigned ∧
      ev.deliveryScore ∈ ({1, 3, 5} : Set ℚ)) := by
  obtain ⟨ds, ps, dt, si, oi⟩ := ra
  obtain ⟨sc, pf, dc, sr, ri⟩ := rb
  constructor
  · intro ev de hok
    cases si with
    | none => simp [transformA, mkDeliveryEventBase] at hok
    | some si' =>
        cases oi with
        | none => simp [transformA, mkDeliveryEventBase] at hok
        | some oi' =>
            rw [transformA_some_eq] at hok
            obtain ⟨hev, -⟩ := (Prod.mk.injEq ..).mp (Except.ok.inj hok)
            subst hev
            exact ⟨normalize_status_mem _, rfl, rfl, calculate_score_mem _ _⟩
  · intro ev de hok
    cases sr with
    | none => simp [transformB, mkDeliveryEventBase] at hok
    | some sr' =>
        cases ri with
        | none => simp [transformB, mkDeliveryEventBase] at hok
        | some ri' =>
            rw [transformB_some_eq] at hok
            obtain ⟨hev, -⟩ := (Prod.mk.injEq ..).mp (Except.ok.inj hok)
            subst hev
            exact ⟨normalize_status_mem _, rfl, rfl, calculate_score_mem _ _⟩

/-- Witness for C10 at a concrete input. -/
theorem transform_output_invariant_witness :
    ∀ ev de,
      transformA (fun _ => some 3) 0
          ⟨some "in transit", none, some "t", some "S1", some "A-2"⟩ = .ok (ev, de) →
      ev.status ∈ ["delivered", "cancelled", "pending", "other"] ∧
      ev.isSigned = (Option.getD none false) ∧
      ev.deliveryScore = calculate_score (ev.status == "delivered") ev.isSigned ∧
      ev.deliveryScore ∈ ({1, 3, 5} : Set ℚ) :=
  (transform_output_invariant (fun _ => some 3) (fun _ => some 3) 0
    ⟨some "in transit", none, some "t", some "S1", some "A-2"⟩
    ⟨none, none, none, none, none⟩).1

/-- C1: Upsert idempotence: two upserts whose events share the
(supplier, supplierDeliveryId) key, into a store holding no row for that
key, leave exactly one row for the key; its content fields (siteId,
status, deliveredAt, deliveryScore, isSigned, sourceData, dataErrors,
createdAt) are those of the first call, and only jobId and updatedAt come from
the second call. -/
theorem upsert_idempotent
    (s : List StoredEvent) (e1 e2 : DeliveryEventBase)
    (j1 j2 : String) (p1 p2 : SourceData) (d1 d2 : DataErrors) (t1 t2 : DateTime)
    (hsup : e2.supplier = e1.supplier)
    (hid : e2.supplierDeliveryId = e1.supplierDeliveryId)
    (hfresh : ∀ r ∈ s, sameKey r e1 = false) :
    (insert_or_update_delivery_event
        (insert_or_update_delivery_event s e1 j1 p1 d1 t1) e2 j2 p2 d2 t2).filter
      (fun r => sameKey r e2) =
      [{ jobId := j2, siteId := e1.siteId, supplier := e1.supplier,
         supplierDeliveryId := e1.supplierDeliveryId, deliveredAt := e1.deliveredAt,
         status := e1.status, deliveryScore := e1.deliveryScore,
         isSigned := e1.isSigned, dataErrors := d1, sourceData := p1,
         createdAt := t1, updatedAt := t2 }] := by
  have hkey : ∀ r, sameKey r e2 = sameKey r e1 := by
    intro r
    simp [sameKey, hsup, hid]
  have hany1 : s.any (fun r => sameKey r e1) = false := by
    rw [List.any_eq_false]
    intro r hr
    simp [hfresh r hr]
  have h1 : insert_or_update_delivery_event s e1 j1 p1 d1 t1 =
      s ++ [{ jobId := j1, siteId := e1.siteId, supplier := e1.supplier,
              supplierDeliveryId := e1.supplierDeliveryId,
              deliveredAt := e1.deliveredAt, status := e1.status,
              deliveryScore := e1.deliveryScore, isSigned := e1.isSigned,
              dataErrors := d1, sourceData := p1,
              createdAt := t1, updatedAt := t1 }] := by
    rw [insert_or_update_delivery_event, hany1]
    simp
  rw [h1]
  have hrowkey : sameKey
      { jobId := j1, siteId := e1.siteId, supplier := e1.supplier,
        supplierDeliveryId := e1.supplierDeliveryId,
        deliveredAt := e1.deliveredAt, status := e1.status,
        deliveryScore := e1.deliveryScore, isSigned := e1.isSigned,
        dataErrors := d1, sourceData := p1,
        createdAt := t1, updatedAt := t1 } e2 = true := by
    simp [sameKey, hsup, hid]
  rw [insert_or_update_delivery_event]
  rw [List.any_append]
  simp only [List.any_cons, List.any_nil, hrowkey, Bool.true_or, Bool.or_true, if_true]
  rw [List.map_append, List.filter_append]
  have hsmap : (s.map fun r =>
      if sameKey r e2 then { r with jobId := j2, updatedAt := t2 } else r) = s := by
    rw [List.map_congr_left (g := id), List.map_id]
    intro r hr
    simp [hkey r, hfresh r hr]
  rw [hsmap]
  have hsfilter : s.filter (fun r => sameKey r e2) = [] := by
    rw [List.filter_eq_nil_iff]
    intro r hr
    simp [hkey r, hfresh r hr]
  rw [hsfilter]
  simp only [List.map_cons, List.map_nil, hrowkey, if_true, List.nil_append]
  rw [List.filter_cons]
  simp [sameKey, hsup, hid]

/-- Witness for C1 at a concrete input: a fresh store, two upserts with
the same key and differing other fields. -/
theorem upsert_idempotent_witness :
    (let e1 : DeliveryEventBase := ⟨"S1", "Partner_A", "D-1", 10, "delivered", 5, true⟩
     let e2 : DeliveryEventBase := ⟨"S2", "Partner_A", "D-1", 20, "pending", 1, false⟩
     (insert_or_update_delivery_event
        (insert_or_update_delivery_event [] e1 "job1" "{a}" none 100)
        e2 "job2" "{b}" (some "x") 200).filter (fun r => sameKey r e2) =
      [{ jobId := "job2", siteId := "S1", supplier := "Partner_A",
         supplierDeliveryId := "D-1", deliveredAt := 10, status := "delivered",
         deliveryScore := 5, isSigned := true, dataErrors := none,
         sourceData := "{a}", createdAt := 100, updatedAt := 200 }]) :=
  upsert_idempotent [] ⟨"S1", "Partner_A", "D-1", 10, "delivered", 5, true⟩
    ⟨"S2", "Partner_A", "D-1", 20, "pending", 1, false⟩
    "job1" "job2" "{a}" "{b}" none (some "x") 100 200 rfl rfl
    (fun r hr => absurd hr (List.not_mem_nil r))

lemma update_job_status_fields (job : Job) (status : String)
    (su : Option FinalStats) (err : Option String) (now : DateTime) :
    (update_job_status job status su err now).status = status ∧
    (update_job_status job status su err now).finishedAt =
      (if status ∈ ["finished", "failed"] then some now else job.finishedAt) := by
  unfold update_job_status
  cases su <;> by_cases he : truthyStr err <;>
    by_cases hs : status ∈ ["finished", "failed"] <;> simp [he, hs]

lemma applyUpdates_inv (us : List UpdateArgs) :
    ∀ job, finishedInv job → validSeq job.status us →
      finishedInv (applyUpdates job us) := by
  induction us with
  | nil => exact fun job h _ => h
  | cons u us ih =>
      intro job hinv hval
      obtain ⟨hallow, hrest⟩ := hval
      obtain ⟨hst, hfin⟩ :=
        update_job_status_fields job u.status u.stats u.error u.now
      rw [applyUpdates]
      apply ih
      · unfold finishedInv
        rw [hfin, hst]
        rcases hallow with ⟨h1, h2⟩ | ⟨h1, h2⟩
        · rw [h2]
          have : job.finishedAt.isSome = false := by
            rw [finishedInv, h1] at hinv
            simp at hinv
            simp [hinv]
          simp [this]
        · rcases h2 with h2 | h2 <;> rw [h2] <;> simp
      · rw [hst]
        exact hrest

/-- C9: Terminal-timestamp invariant: a job created by `create_job`
(status `created`, `finishedAt` null) and mutated only through
`update_job_status` calls following the state machine
`created → processing → {finished, failed}` has `finishedAt` non-null iff
its status is `finished` or `failed`; moreover `update_job_status` writes
`finishedAt` exactly when it writes a terminal status. -/
theorem job_finishedAt_iff (jobId siteId date : String) (us : List UpdateArgs)
    (h : validSeq "created" us) :
    (create_job jobId siteId date).status = "created" ∧
    (create_job jobId siteId date).finishedAt = none ∧
    ((applyUpdates (create_job jobId siteId date) us).finishedAt.isSome ↔
      ((applyUpdates (create_job jobId siteId date) us).status = "finished" ∨
       (applyUpdates (create_job jobId siteId date) us).status = "failed")) ∧
    (∀ (job : Job) (st : String) (su : Option FinalStats)
        (err : Option String) (now : DateTime),
      (update_job_status job st su err now).finishedAt =
        (if st ∈ ["finished", "failed"] then some now else job.finishedAt)) := by
  refine ⟨rfl, rfl, ?_, ?_⟩
  · exact applyUpdates_inv us (create_job jobId siteId date) (by simp [finishedInv, create_job]) h
  · exact fun job st su err now => (update_job_status_fields job st su err now).2

/-- Witness for C9 at a concrete input: the sequence
`processing` then `finished`. -/
theorem job_finishedAt_iff_witness :
    (validSeq "created"
        [⟨"processing", none, none, 1⟩, ⟨"finished", none, none, 2⟩] ∧
      ((applyUpdates (create_job "J" "S1" "2025-10-27")
          [⟨"processing", none, none, 1⟩, ⟨"finished", none, none, 2⟩]).finishedAt.isSome ↔
        ((applyUpdates (create_job "J" "S1" "2025-10-27")
            [⟨"processing", none, none, 1⟩, ⟨"finished", none, none, 2⟩]).status = "finished" ∨
         (applyUpdates (create_job "J" "S1" "2025-10-27")
            [⟨"processing", none, none, 1⟩, ⟨"finished", none, none, 2⟩]).status = "failed"))) := by
  have hv : validSeq "created"
      [⟨"processing", none, none, 1⟩, ⟨"finished", none, none, 2⟩] := by
    refine ⟨Or.inl ⟨rfl, rfl⟩, Or.inr ⟨rfl, Or.inl rfl⟩, trivial⟩
  exact ⟨hv, (job_finishedAt_iff "J" "S1" "2025-10-27" _ hv).2.2.1⟩

lemma truthyStr_eq_isSome (o : Option String) (h : o ≠ some "") :
    truthyStr o = o.isSome := by
  cases o with
  | none => rfl
  | some s =>
      have hs : s ≠ "" := fun hx => h (by rw [hx])
      simp [truthyStr, hs]

lemma hasFatalError_iff (results : PartnerResults)
    (hne : ∀ r ∈ results, r.2.2 ≠ some "") :
    hasFatalError results = true ↔ ∃ r ∈ results, r.2.2.isSome := by
  unfold hasFatalError
  rw [List.any_eq_true]
  constructor
  · rintro ⟨r, hr, ht⟩
    rw [truthyStr_eq_isSome r.2.2 (hne r hr)] at ht
    exact ⟨r, hr, ht⟩
  · rintro ⟨r, hr, ht⟩
    exact ⟨r, hr, by rw [truthyStr_eq_isSome r.2.2 (hne r hr)]; exact ht⟩

lemma overallErrorMessage_aux (results : PartnerResults)
    (hne : ∀ r ∈ results, r.2.2 ≠ some "") :
    ∀ acc : Option String, (acc = none ∨ truthyStr acc = true) →
      results.foldl
        (fun acc r =>
          if truthyStr r.2.2 then (if truthyStr acc then acc else r.2.2) else acc)
        acc =
      (if truthyStr acc then acc else results.findSome? (fun r => r.2.2)) := by
  induction results with
  | nil =>
      rintro acc (rfl | hacc)
      · rfl
      · simp [hacc]
  | cons r rs ih =>
      have hne' : ∀ x ∈ rs, x.2.2 ≠ some "" :=
        fun x hx => hne x (List.mem_cons_of_mem r hx)
      rintro acc (rfl | hacc)
      · simp only [List.foldl_cons, List.findSome?_cons,
          show truthyStr none = false from rfl, Bool.false_eq_true, if_false]
        by_cases ht : truthyStr r.2.2 = true
        · rw [if_pos ht, ih hne' r.2.2 (Or.inr ht), if_pos ht]
          have hsome : r.2.2.isSome := by
            rw [← truthyStr_eq_isSome r.2.2 (hne r (List.mem_cons_self r rs))]
            exact ht
          obtain ⟨m, hm⟩ := Option.isSome_iff_exists.mp hsome
          rw [hm]
        · have hnone : r.2.2 = none := by
            rcases hr22 : r.2.2 with _ | m
            · rfl
            · exfalso
              apply ht
              have hme : m ≠ "" := fun hm =>
                hne r (List.mem_cons_self r rs) (by rw [hr22, hm])
              rw [hr22]
              simp [truthyStr, hme]
          rw [if_neg ht, ih hne' none (Or.inl rfl), hnone]
          simp [truthyStr]
      · simp only [List.foldl_cons]
        have hstep :
            (if truthyStr r.2.2 then (if truthyStr acc then acc else r.2.2) else acc)
              = acc := by
          by_cases ht : truthyStr r.2.2 = true <;> simp [ht, hacc]
        rw [hstep, ih hne' acc (Or.inr hacc), if_pos hacc, if_pos hacc]

lemma overallErrorMessage_eq_findSome (results : PartnerResults)
    (hne : ∀ r ∈ results, r.2.2 ≠ some "") :
    overallErrorMessage results = results.findSome? (fun r => r.2.2) := by
  unfold overallErrorMessage
  rw [overallErrorMessage_aux results hne none (Or.inl rfl)]
  rfl

lemma update_job_status_error_set (job : Job) (status : String)
    (su : Option FinalStats) (err : Option String) (now : DateTime)
    (h : truthyStr err = true) :
    (update_job_status job status su err now).error = err := by
  unfold update_job_status
  cases su <;> by_cases hs : status ∈ ["finished", "failed"] <;> simp [h, hs]

/-- C2: Job terminal-status decision: once all partner fetches complete,
the job is `failed` iff some partner returned a (non-null) fatal batch
error and the aggregate stored count is zero; in every other case it is
`finished`; and the first non-null fatal message in partner registration
order is what the aggregation retains and records as the job error
text.  The hypothesis reflects that `fetch_partner_data` never produces
an empty-string fatal message. -/
theorem run_fetch_job_terminal_status
    (job : Job) (results : PartnerResults) (nowP nowT : DateTime)
    (hne : ∀ r ∈ results, r.2.2 ≠ some "") :
    ((run_fetch_job job results nowP nowT).status = "failed" ↔
      ((∃ r ∈ results, r.2.2.isSome) ∧ (finalStatsOf results).stored = 0)) ∧
    (¬((∃ r ∈ results, r.2.2.isSome) ∧ (finalStatsOf results).stored = 0) →
      (run_fetch_job job results nowP nowT).status = "finished") ∧
    overallErrorMessage results = results.findSome? (fun r => r.2.2) ∧
    (∀ m, overallErrorMessage results = some m →
      (run_fetch_job job results nowP nowT).error = some m) := by
  have hover := overallErrorMessage_eq_findSome results hne
  have hovertruthy : ∀ m, overallErrorMessage results = some m → m ≠ "" := by
    intro m hm
    rw [hover] at hm
    obtain ⟨r, hr, hfm⟩ := List.exists_of_findSome?_eq_some hm
    intro hcon
    exact hne r hr (by rw [hfm, hcon])
  by_cases hc :
      (hasFatalError results && decide ((finalStatsOf results).stored = 0)) = true
  · have hrun : run_fetch_job job results nowP nowT =
        update_job_status (update_job_status job "processing" none none nowP)
          "failed" (some (finalStatsOf results)) (overallErrorMessage results) nowT := by
      rw [run_fetch_job]
      simp only [hc, if_true]
    rw [Bool.and_eq_true, decide_eq_true_iff] at hc
    refine ⟨?_, ?_, hover, ?_⟩
    · rw [hrun, (update_job_status_fields ..).1]
      simp only [true_iff]
      exact ⟨(hasFatalError_iff results hne).mp hc.1, hc.2⟩
    · intro hcon
      exact absurd ⟨(hasFatalError_iff results hne).mp hc.1, hc.2⟩ hcon
    · intro m hm
      rw [hrun, update_job_status_error_set _ _ _ _ _
        (by rw [hm]; simp [truthyStr, hovertruthy m hm])]
      exact hm
  · have hrun : run_fetch_job job results nowP nowT =
        update_job_status (update_job_status job "processing" none none nowP)
          "finished" (some (finalStatsOf results)) (overallErrorMessage results) nowT := by
      rw [run_fetch_job]
      simp only [hc, if_false]
      rfl
    rw [Bool.and_eq_true] at hc
    push_neg at hc
    refine ⟨?_, ?_, hover, ?_⟩
    · rw [hrun, (update_job_status_fields ..).1]
      simp only [show ("finished" : String) = "failed" ↔ False by simp, false_iff]
      rintro ⟨hex, hz⟩
      exact absurd ((hasFatalError_iff results hne).mpr hex)
        (by simpa [hz] using hc)
    · intro _
      rw [hrun, (update_job_status_fields ..).1]
    · intro m hm
      rw [hrun, update_job_status_error_set _ _ _ _ _
        (by rw [hm]; simp [truthyStr, hovertruthy m hm])]
      exact hm

/-- Witness for C2 at a concrete input: one partner fatal, the other
stored nothing — the job fails with the first fatal message recorded. -/
theorem run_fetch_job_terminal_status_witness :
    (let results : PartnerResults :=
      [("Partner_A", ⟨0, 0, 0, some "HTTP Error 503"⟩,
         some "Failed to fetch data from Partner_A"),
       ("Partner_B", ⟨2, 0, 2, none⟩, none)]
     ((run_fetch_job (create_job "J" "S1" "2025-10-27") results 1 2).status = "failed" ↔
        ((∃ r ∈ results, r.2.2.isSome) ∧ (finalStatsOf results).stored = 0)) ∧
     overallErrorMessage results = results.findSome? (fun r => r.2.2)) := by
  have h := run_fetch_job_terminal_status (create_job "J" "S1" "2025-10-27")
    [("Partner_A", ⟨0, 0, 0, some "HTTP Error 503"⟩,
       some "Failed to fetch data from Partner_A"),
     ("Partner_B", ⟨2, 0, 2, none⟩, none)] 1 2
    (by
      intro r hr
      simp only [List.mem_cons, List.not_mem_nil, or_false] at hr
      rcases hr with rfl | rfl
      · simp
      · simp)
  exact ⟨h.1, h.2.2.1⟩

section Retry

variable (base : ℚ) (jitter : Bool) (u : ℕ → ℚ) (attempts : ℕ → AttemptOutcome)

lemma retryGo_succ_eq (i f : ℕ) :
    retryGo base jitter u attempts i (f + 1) =
      match attempts i with
      | .response status =>
          if RETRY_STATUS_CODES.contains status && decide (0 < f) then
            ⟨(retryGo base jitter u attempts (i + 1) f).result,
              backoffDelay base jitter u i ::
                (retryGo base jitter u attempts (i + 1) f).delays,
              (retryGo base jitter u attempts (i + 1) f).attemptsMade + 1⟩
          else ⟨.returned status, [], 1⟩
      | .raised e =>
          if !caughtByRetry e then ⟨.raised e, [], 1⟩
          else if fatalHttp e then ⟨.raised e, [], 1⟩
          else if 0 < f then
            ⟨(retryGo base jitter u attempts (i + 1) f).result,
              backoffDelay base jitter u i ::
                (retryGo base jitter u attempts (i + 1) f).delays,
              (retryGo base jitter u attempts (i + 1) f).attemptsMade + 1⟩
          else ⟨.raised e, [], 1⟩ := rfl

lemma retryGo_response (i f s : ℕ) (h : attempts i = .response s) :
    retryGo base jitter u attempts i (f + 1) =
      (if RETRY_STATUS_CODES.contains s && decide (0 < f) then
        ⟨(retryGo base jitter u attempts (i + 1) f).result,
          backoffDelay base jitter u i ::
            (retryGo base jitter u attempts (i + 1) f).delays,
          (retryGo base jitter u attempts (i + 1) f).attemptsMade + 1⟩
      else ⟨.returned s, [], 1⟩) := by
  rw [retryGo_succ_eq, h]

lemma retryGo_raised (i f : ℕ) (e : NetError) (h : attempts i = .raised e) :
    retryGo base jitter u attempts i (f + 1) =
      (if !caughtByRetry e then ⟨.raised e, [], 1⟩
      else if fatalHttp e then ⟨.raised e, [], 1⟩
      else if 0 < f then
        ⟨(retryGo base jitter u attempts (i + 1) f).result,
          backoffDelay base jitter u i ::
            (retryGo base jitter u attempts (i + 1) f).delays,
          (retryGo base jitter u attempts (i + 1) f).attemptsMade + 1⟩
      else ⟨.raised e, [], 1⟩) := by
  rw [retryGo_succ_eq, h]

lemma retryGo_retriable_step (i f : ℕ)
    (h0 : retriableOutcome (attempts i) = true) (hf : 0 < f) :
    retryGo base jitter u attempts i (f + 1) =
      ⟨(retryGo base jitter u attempts (i + 1) f).result,
        backoffDelay base jitter u i ::
          (retryGo base jitter u attempts (i + 1) f).delays,
        (retryGo base jitter u attempts (i + 1) f).attemptsMade + 1⟩ := by
  cases h : attempts i with
  | response s =>
      rw [h] at h0
      simp only [retriableOutcome] at h0
      have hmem : s ∈ RETRY_STATUS_CODES := by simpa using h0
      rw [retryGo_response base jitter u attempts i f s h,
        if_pos (by simp [hmem, hf])]
  | raised e =>
      rw [h] at h0
      simp only [retriableOutcome, Bool.and_eq_true, Bool.not_eq_true'] at h0
      rw [retryGo_raised base jitter u attempts i f e h]
      rw [if_neg (by simp [h0.1]), if_neg (by simp [h0.2]), if_pos hf]

lemma retryGo_last_step (i : ℕ)
    (h0 : retriableOutcome (attempts i) = true) :
    retryGo base jitter u attempts i 1 =
      ⟨resultOfOutcome (attempts i), [], 1⟩ := by
  cases h : attempts i with
  | response s =>
      rw [h] at h0
      rw [retryGo_response base jitter u attempts i 0 s h,
        if_neg (by simp), resultOfOutcome]
  | raised e =>
      rw [h] at h0
      simp only [retriableOutcome, Bool.and_eq_true, Bool.not_eq_true'] at h0
      rw [retryGo_raised base jitter u attempts i 0 e h]
      rw [if_neg (by simp [h0.1]), if_neg (by simp [h0.2]),
        if_neg (by simp), resultOfOutcome]

lemma retryGo_attempts_le :
    ∀ fuel i, (retryGo base jitter u attempts i fuel).attemptsMade ≤ fuel := by
  intro fuel
  induction fuel with
  | zero => intro i; simp [retryGo]
  | succ f ih =>
      intro i
      cases h : attempts i with
      | response s =>
          rw [retryGo_response base jitter u attempts i f s h]
          split
          · simpa using Nat.succ_le_succ (ih (i + 1))
          · simp
      | raised e =>
          rw [retryGo_raised base jitter u attempts i f e h]
          split
          · simp
          · split
            · simp
            · split
              · simpa using Nat.succ_le_succ (ih (i + 1))
              · simp

lemma retryGo_attempts_pos :
    ∀ fuel i, 0 < fuel →
      1 ≤ (retryGo base jitter u attempts i fuel).attemptsMade := by
  rintro (_ | f) i hf
  · exact absurd hf (by simp)
  · cases h : attempts i with
    | response s =>
        rw [retryGo_response base jitter u attempts i f s h]
        split <;> simp
    | raised e =>
        rw [retryGo_raised base jitter u attempts i f e h]
        split
        · simp
        · split
          · simp
          · split <;> simp

lemma retryGo_retries :
    ∀ k i fuel, k < fuel →
      (∀ j, j < k → retriableOutcome (attempts (i + j)) = true) →
      k + 1 ≤ (retryGo base jitter u attempts i fuel).attemptsMade := by
  intro k
  induction k with
  | zero =>
      intro i fuel hk _
      exact retryGo_attempts_pos base jitter u attempts fuel i hk
  | succ k ih =>
      rintro i (_ | f) hk hret
      · exact absurd hk (by simp)
      · have hkf : k < f := Nat.lt_of_succ_lt_succ hk
        have hf : 0 < f := Nat.lt_of_le_of_lt (Nat.zero_le k) hkf
        have h0 : retriableOutcome (attempts i) = true := by
          simpa using hret 0 (Nat.succ_pos k)
        have hshift : ∀ j, j < k → retriableOutcome (attempts (i + 1 + j)) = true := by
          intro j hj
          have := hret (j + 1) (Nat.succ_lt_succ hj)
          rwa [show i + (j + 1) = i + 1 + j by omega] at this
        have hrec := ih (i + 1) f hkf hshift
        rw [retryGo_retriable_step base jitter u attempts i f h0 hf]
        simpa using Nat.succ_le_succ hrec

lemma retryGo_exhaust :
    ∀ f i, (∀ k, k ≤ f → retriableOutcome (attempts (i + k)) = true) →
      (retryGo base jitter u attempts i (f + 1)).result =
          resultOfOutcome (attempts (i + f)) ∧
      (retryGo base jitter u attempts i (f + 1)).attemptsMade = f + 1 := by
  intro f
  induction f with
  | zero =>
      intro i hret
      have h0 : retriableOutcome (attempts i) = true := by
        simpa using hret 0 (le_refl 0)
      rw [retryGo_last_step base jitter u attempts i h0]
      simp
  | succ f ih =>
      intro i hret
      have h0 : retriableOutcome (attempts i) = true := by
        simpa using hret 0 (Nat.zero_le _)
      have hshift : ∀ k, k ≤ f → retriableOutcome (attempts (i + 1 + k)) = true := by
        intro k hk
        have := hret (k + 1) (Nat.succ_le_succ hk)
        rwa [show i + (k + 1) = i + 1 + k by omega] at this
      have hrec := ih (i + 1) hshift
      rw [retryGo_retriable_step base jitter u attempts i (f + 1) h0 (Nat.succ_pos f)]
      refine ⟨?_, ?_⟩
      · rw [show i + (f + 1) = i + 1 + f by omega]
        exact hrec.1
      · simpa using hrec.2

lemma retryGo_success :
    ∀ k i fuel s, k < fuel →
      (∀ j, j < k → retriableOutcome (attempts (i + j)) = true) →
      attempts (i + k) = .response s →
      RETRY_STATUS_CODES.contains s = false →
      retryGo base jitter u attempts i fuel =
        ⟨.returned s,
         (List.range k).map (fun j => backoffDelay base jitter u (i + j)),
         k + 1⟩ := by
  intro k
  induction k with
  | zero =>
      rintro i (_ | f) s hk _ hres hns
      · exact absurd hk (by simp)
      · rw [Nat.add_zero] at hres
        have hmem : s ∉ RETRY_STATUS_CODES := by simpa using hns
        rw [retryGo_response base jitter u attempts i f s hres,
          if_neg (by simp [hmem])]
        simp
  | succ k ih =>
      rintro i (_ | f) s hk hret hres hns
      · exact absurd hk (by simp)
      · have hkf : k < f := Nat.lt_of_succ_lt_succ hk
        have hf : 0 < f := Nat.lt_of_le_of_lt (Nat.zero_le k) hkf
        have h0 : retriableOutcome (attempts i) = true := by
          simpa using hret 0 (Nat.succ_pos k)
        have hshift : ∀ j, j < k → retriableOutcome (attempts (i + 1 + j)) = true := by
          intro j hj
          have := hret (j + 1) (Nat.succ_lt_succ hj)
          rwa [show i + (j + 1) = i + 1 + j by omega] at this
        have hres' : attempts (i + 1 + k) = .response s := by
          rwa [show i + 1 + k = i + (k + 1) by omega]
        have hrec := ih (i + 1) f s hkf hshift hres' hns
        have hdelays :
            (List.range (k + 1)).map (fun j => backoffDelay base jitter u (i + j)) =
              backoffDelay base jitter u i ::
                (List.range k).map (fun j => backoffDelay base jitter u (i + 1 + j)) := by
          rw [List.range_succ_eq_map, List.map_cons, List.map_map]
          simp only [Nat.add_zero]
          congr 1
          apply List.map_congr_left
          intro j _
          simp only [Function.comp_apply]
          congr 1
          omega
        rw [retryGo_retriable_step base jitter u attempts i f h0 hf, hrec, hdelays]

lemma retryGo_fatal_raise :
    ∀ fuel i e, 0 < fuel → attempts i = .raised e →
      (caughtByRetry e = false ∨ fatalHttp e = true) →
      retryGo base jitter u attempts i fuel = ⟨.raised e, [], 1⟩ := by
  rintro (_ | f) i e hf h hfatal
  · exact absurd hf (by simp)
  · rw [retryGo_raised base jitter u attempts i f e h]
    rcases hfatal with hc | hc
    · rw [if_pos (by simp [hc])]
    · by_cases hcaught : caughtByRetry e = true
      · rw [if_neg (by simp [hcaught]), if_pos hc]
      · rw [if_pos (by simp [Bool.eq_false_iff.mpr hcaught])]

lemma retryGo_nonretriable_response :
    ∀ fuel i s, 0 < fuel → attempts i = .response s →
      RETRY_STATUS_CODES.contains s = false →
      retryGo base jitter u attempts i fuel = ⟨.returned s, [], 1⟩ := by
  rintro (_ | f) i s hf h hns
  · exact absurd hf (by simp)
  · have hmem : s ∉ RETRY_STATUS_CODES := by simpa using hns
    rw [retryGo_response base jitter u attempts i f s h]
    rw [if_neg (by simp [hmem])]

end Retry

/-- C3: Retry classification and exhaustion: the wrapper executes the
operation at most `max_retries + 1` times; connection failures, timeouts
and responses with status in {500, 502, 503, 504} are retried while
attempts remain; a caught fatal `HTTPStatusError` or an uncaught error
(e.g. decode) propagates immediately after one attempt, as does — through
`raise_for_status()` in the caller — any other 4xx/5xx response; and when
every allowed attempt ends in a retriable error, the caller receives the
error of the last attempt unmodified in kind after exactly
`max_retries + 1` attempts. -/
theorem retry_classification (mr : ℕ) (base : ℚ) (jitter : Bool)
    (u : ℕ → ℚ) (attempts : ℕ → AttemptOutcome) :
    (async_retry mr base jitter u attempts).attemptsMade ≤ mr + 1 ∧
    (∀ k, k ≤ mr → (∀ i, i < k → retriableOutcome (attempts i) = true) →
      k + 1 ≤ (async_retry mr base jitter u attempts).attemptsMade) ∧
    (∀ e, attempts 0 = .raised e →
      (caughtByRetry e = false ∨ fatalHttp e = true) →
      async_retry mr base jitter u attempts = ⟨.raised e, [], 1⟩) ∧
    (∀ s, attempts 0 = .response s → RETRY_STATUS_CODES.contains s = false →
      400 ≤ s → s ≤ 599 →
      (fetchWithStatusCheck mr base jitter u attempts).1 =
          .error (.httpStatusError s) ∧
      (fetchWithStatusCheck mr base jitter u attempts).2.attemptsMade = 1) ∧
    ((∀ i, i ≤ mr → retriableOutcome (attempts i) = true) →
      (fetchWithStatusCheck mr base jitter u attempts).1 =
          .error (errorOfOutcome (attempts mr)) ∧
      (fetchWithStatusCheck mr base jitter u attempts).2.attemptsMade = mr + 1) := by
  refine ⟨retryGo_attempts_le base jitter u attempts (mr + 1) 0,
    fun k hk hret => retryGo_retries base jitter u attempts k 0 (mr + 1)
      (Nat.lt_succ_of_le hk) (fun j hj => by simpa using hret j hj), ?_, ?_, ?_⟩
  · intro e h hfatal
    exact retryGo_fatal_raise base jitter u attempts (mr + 1) 0 e
      (Nat.succ_pos mr) h hfatal
  · intro s h hns h400 h599
    have hrun := retryGo_nonretriable_response base jitter u attempts (mr + 1) 0 s
      (Nat.succ_pos mr) h hns
    unfold fetchWithStatusCheck async_retry
    rw [hrun]
    simp only
    rw [if_pos ⟨h400, h599⟩]
    exact ⟨rfl, rfl⟩
  · intro hret
    obtain ⟨hres, hatt⟩ := retryGo_exhaust base jitter u attempts mr 0
      (fun k hk => by simpa using hret k hk)
    rw [Nat.zero_add] at hres
    unfold fetchWithStatusCheck async_retry
    dsimp only
    rw [hres]
    cases h : attempts mr with
    | response s =>
        have h0 : retriableOutcome (attempts mr) = true := hret mr (le_refl mr)
        rw [h] at h0
        simp only [retriableOutcome] at h0
        have hmem : s ∈ RETRY_STATUS_CODES := by simpa using h0
        have hrange : 400 ≤ s ∧ s ≤ 599 := by
          simp only [RETRY_STATUS_CODES, List.mem_cons, List.not_mem_nil,
            or_false] at hmem
          rcases hmem with rfl | rfl | rfl | rfl <;> omega
        simp only [resultOfOutcome, errorOfOutcome]
        rw [if_pos hrange]
        exact ⟨rfl, hatt⟩
    | raised e =>
        simp only [resultOfOutcome, errorOfOutcome]
        exact ⟨trivial, hatt⟩

/-- Witness for C3 at concrete inputs: a fatal 404 raised on the first
attempt propagates immediately. -/
theorem retry_classification_witness :
    async_retry 3 1 false (fun _ => 0)
        (fun _ => .raised (.httpStatusError 404)) =
      ⟨.raised (.httpStatusError 404), [], 1⟩ :=
  (retry_classification 3 1 false (fun _ => 0)
      (fun _ => .raised (.httpStatusError 404))).2.2.1
    (.httpStatusError 404) rfl (Or.inr (by decide))

/-- C4: Retry success path and delay schedule: a call failing with a
retriable error exactly `k` times before succeeding returns the success
value having slept exactly `k` times, the delay before retry `i` being
`base * 2^i` without jitter and a value in `[0, base * 2^i)` with jitter,
the upper bounds non-decreasing in `i`; a fatal error on the first
attempt propagates with zero sleeps. -/
theorem retry_success_and_delays (mr : ℕ) (base : ℚ) (jitter : Bool)
    (u : ℕ → ℚ) (attempts : ℕ → AttemptOutcome) :
    (∀ k s, k ≤ mr → (∀ i, i < k → retriableOutcome (attempts i) = true) →
      attempts k = .response s → RETRY_STATUS_CODES.contains s = false →
      async_retry mr base jitter u attempts =
        ⟨.returned s, (List.range k).map (backoffDelay base jitter u), k + 1⟩) ∧
    (∀ i, backoffDelay base false u i = base * 2 ^ i) ∧
    (∀ i, 0 < base → 0 ≤ u i → u i < 1 →
      0 ≤ backoffDelay base true u i ∧ backoffDelay base true u i < base * 2 ^ i) ∧
    (∀ i, 0 ≤ base → base * 2 ^ i ≤ base * 2 ^ (i + 1)) ∧
    (∀ e, attempts 0 = .raised e →
      (caughtByRetry e = false ∨ fatalHttp e = true) →
      async_retry mr base jitter u attempts = ⟨.raised e, [], 1⟩) := by
  refine ⟨?_, fun i => rfl, ?_, ?_, ?_⟩
  · intro k s hk hret hres hns
    have := retryGo_success base jitter u attempts k 0 (mr + 1) s
      (Nat.lt_succ_of_le hk) (fun j hj => by simpa using hret j hj)
      (by simpa using hres) hns
    rw [async_retry, this]
    simp
  · intro i hb hu0 hu1
    have hpow : (0 : ℚ) < base * 2 ^ i := by positivity
    constructor
    · simp only [backoffDelay, if_true]
      positivity
    · simp only [backoffDelay, if_true]
      calc u i * (base * 2 ^ i) < 1 * (base * 2 ^ i) := by
            exact mul_lt_mul_of_pos_right hu1 hpow
        _ = base * 2 ^ i := one_mul _
  · intro i hb
    have : (2 : ℚ) ^ i ≤ 2 ^ (i + 1) := by
      apply pow_le_pow_right₀ (by norm_num)
      omega
    exact mul_le_mul_of_nonneg_left this hb
  · intro e h hfatal
    exact retryGo_fatal_raise base jitter u attempts (mr + 1) 0 e
      (Nat.succ_pos mr) h hfatal

/-- Witness for C4 at concrete inputs: two 503 responses then a 200,
with `max_retries = 3`, jitter off, base backoff 1 second: success after
exactly two sleeps of 1s and 2s. -/
theorem retry_success_and_delays_witness :
    async_retry 3 1 false (fun _ => 0)
        (fun i => if i < 2 then .response 503 else .response 200) =
      ⟨.returned 200, [1, 2], 3⟩ := by
  have h := (retry_success_and_delays 3 1 false (fun _ => 0)
      (fun i => if i < 2 then .response 503 else .response 200)).1
    2 200 (by omega) (fun i hi => by interval_cases i <;> decide)
    (by decide) (by decide)
  rw [h]
  norm_num [backoffDelay, List.range_succ]

lemma processRecord_counts {ρ σ : Type}
    (transform : ρ → Except PyError (DeliveryEventBase × DataErrors))
    (persist : σ → ρ → DeliveryEventBase → DataErrors → Except PyError σ) :
    ∀ (rs : List ρ) (st : PartnerStats) (s : σ),
      ((rs.foldl (processRecord transform persist) (st, s)).1.transformed +
          (rs.foldl (processRecord transform persist) (st, s)).1.errors =
        st.transformed + st.errors + rs.length) ∧
      (rs.foldl (processRecord transform persist) (st, s)).1.fetched = st.fetched := by
  intro rs
  induction rs with
  | nil => intro st s; simp
  | cons r rs ih =>
      intro st s
      rw [List.foldl_cons]
      cases htr : transform r with
      | error e =>
          have hstep : processRecord transform persist (st, s) r =
              ({ st with errors := st.errors + 1 }, s) := by
            simp [processRecord, htr]
          rw [hstep]
          obtain ⟨h1, h2⟩ := ih { st with errors := st.errors + 1 } s
          refine ⟨?_, by simpa using h2⟩
          rw [h1]
          simp only [List.length_cons]
          omega
      | ok p =>
          obtain ⟨ev, de⟩ := p
          cases hp : persist s r ev de with
          | error e =>
              have hstep : processRecord transform persist (st, s) r =
                  ({ st with errors := st.errors + 1 }, s) := by
                simp [processRecord, htr, hp]
              rw [hstep]
              obtain ⟨h1, h2⟩ := ih { st with errors := st.errors + 1 } s
              refine ⟨?_, by simpa using h2⟩
              rw [h1]
              simp only [List.length_cons]
              omega
          | ok s' =>
              have hstep : processRecord transform persist (st, s) r =
                  ({ st with transformed := st.transformed + 1 }, s') := by
                simp [processRecord, htr, hp]
              rw [hstep]
              obtain ⟨h1, h2⟩ := ih { st with transformed := st.transformed + 1 } s'
              refine ⟨?_, by simpa using h2⟩
              rw [h1]
              simp only [List.length_cons]
              omega

/-- C6: Fetch-client error containment: every batch-level failure
(exhausted retries, non-retriable HTTP status surfaced by
`raise_for_status`, decode failure) is captured as the optional job-level
fatal error string in the return value with the store left untouched,
and per-record failures (transform or upsert) are each caught, counted
in the per-partner error counter, and do not abort the remaining records:
every fetched record is accounted for as transformed or errored, and the
job-level error is then `None`. -/
theorem fetch_partner_data_containment {ρ σ : Type} (partner_name : String)
    (mr : ℕ) (base : ℚ) (jitter : Bool) (u : ℕ → ℚ)
    (attempts : ℕ → AttemptOutcome)
    (decoded : Except PyError (List ρ))
    (transform : ρ → Except PyError (DeliveryEventBase × DataErrors))
    (persist : σ → ρ → DeliveryEventBase → DataErrors → Except PyError σ)
    (store : σ) :
    (∀ e, (fetchWithStatusCheck mr base jitter u attempts).1 = .error e →
      (fetch_partner_data partner_name mr base jitter u attempts decoded
          transform persist store).2.1.isSome ∧
      (fetch_partner_data partner_name mr base jitter u attempts decoded
          transform persist store).1.error_message.isSome ∧
      (fetch_partner_data partner_name mr base jitter u attempts decoded
          transform persist store).2.2 = store) ∧
    (∀ st msg, (fetchWithStatusCheck mr base jitter u attempts).1 = .ok st →
      decoded = .error msg →
      (fetch_partner_data partner_name mr base jitter u attempts decoded
          transform persist store).2.1.isSome ∧
      (fetch_partner_data partner_name mr base jitter u attempts decoded
          transform persist store).1.error_message.isSome ∧
      (fetch_partner_data partner_name mr base jitter u attempts decoded
          transform persist store).2.2 = store) ∧
    (∀ st rs, (fetchWithStatusCheck mr base jitter u attempts).1 = .ok st →
      decoded = .ok rs →
      (fetch_partner_data partner_name mr base jitter u attempts decoded
          transform persist store).1.fetched = rs.length ∧
      (fetch_partner_data partner_name mr base jitter u attempts decoded
          transform persist store).1.transformed +
        (fetch_partner_data partner_name mr base jitter u attempts decoded
            transform persist store).1.errors = rs.length ∧
      (fetch_partner_data partner_name mr base jitter u attempts decoded
          transform persist store).2.1 = none) := by
  refine ⟨?_, ?_, ?_⟩
  · intro e hnet
    cases e <;> simp [fetch_partner_data, hnet]
  · intro st msg hnet hdec
    simp [fetch_partner_data, hnet, hdec]
  · intro st rs hnet hdec
    simp only [fetch_partner_data, hnet, hdec]
    obtain ⟨h1, h2⟩ := processRecord_counts transform persist rs
      { fetched := rs.length, transformed := 0, errors := 0, error_message := none }
      store
    exact ⟨by simpa using h2, by simpa using h1, trivial⟩

/-- Witness for C6 at concrete inputs: a successful fetch of two
records, the second of which fails to transform — both are accounted
for and no job-level error is reported. -/
theorem fetch_partner_data_containment_witness :
    (let transform : ℕ → Except PyError (DeliveryEventBase × DataErrors) :=
      fun r => if r = 0 then .ok (⟨"S1", "Partner_A", "D-1", 0, "other", 1, false⟩, none)
        else .error "ValidationError"
     let persist : ℕ → ℕ → DeliveryEventBase → DataErrors → Except PyError ℕ :=
      fun s _ _ _ => .ok (s + 1)
     (fetch_partner_data "Partner_A" 3 1 false (fun _ => 0)
        (fun _ => .response 200) (.ok [0, 1]) transform persist 0).1.fetched = 2 ∧
     (fetch_partner_data "Partner_A" 3 1 false (fun _ => 0)
        (fun _ => .response 200) (.ok [0, 1]) transform persist 0).1.transformed +
       (fetch_partner_data "Partner_A" 3 1 false (fun _ => 0)
          (fun _ => .response 200) (.ok [0, 1]) transform persist 0).1.errors = 2 ∧
     (fetch_partner_data "Partner_A" 3 1 false (fun _ => 0)
        (fun _ => .response 200) (.ok [0, 1]) transform persist 0).2.1 = none) := by
  have h := (fetch_partner_data_containment "Partner_A" 3 1 false (fun _ => 0)
      (fun _ => .response 200) (.ok [0, 1])
      (fun r => if r = 0 then
          .ok ((⟨"S1", "Partner_A", "D-1", 0, "other", 1, false⟩ : DeliveryEventBase),
            (none : DataErrors))
        else .error "ValidationError")
      (fun s _ _ _ => .ok (s + 1)) 0).2.2 200 [0, 1] rfl rfl
  simpa using h

end Vestigas
